import Mathlib

/-
Verification of the Cookie Clicker ROI Advisor core pipeline.

This file gives a shallow embedding in Lean 4 of the ROI estimation and
ranking pipeline of the repository:
  - src/src/core/GameStateAdapter.js (EconomicModel, second half of the file),
  - the Constants and Validators modules,
  - the StrategyEngine with GreedyStrategy,
  - relaxed-advisor.js (RelaxedStrategy).

JavaScript numbers are modelled by the type JNum: a rational together with
the special values NaN, +Infinity and -Infinity (negative zero is collapsed
into 0, which is observationally irrelevant for every comparison the code
performs).  The pipeline data (normalized game state, candidates) carries
plain rationals except for the payback time, which the code itself sets to
Infinity as a sentinel.
-/

/-- Model of a JavaScript number: NaN, the two infinities, or a finite value
represented as a rational (floating point granularity is not relevant to any
of the claims; negative zero is collapsed into 0). -/
inductive JNum where
  | nan : JNum
  | posInf : JNum
  | negInf : JNum
  | num (q : ℚ) : JNum
deriving DecidableEq

/-- JavaScript isFinite on an already-numeric value: true exactly on finite numbers. -/
def isFiniteJ : JNum → Bool
  | .num _ => true
  | _ => false

/-- JavaScript strict less-than on numbers: any comparison with NaN is false. -/
def jltb : JNum → JNum → Bool
  | .nan, _ => false
  | _, .nan => false
  | .posInf, _ => false
  | .negInf, .posInf => true
  | .negInf, .negInf => false
  | .negInf, .num _ => true
  | .num _, .posInf => true
  | .num _, .negInf => false
  | .num a, .num b => decide (a < b)

/-- JavaScript less-or-equal on numbers: any comparison with NaN is false. -/
def jleb : JNum → JNum → Bool
  | .nan, _ => false
  | _, .nan => false
  | .negInf, _ => true
  | _, .posInf => true
  | .posInf, _ => false
  | .num _, .negInf => false
  | .num a, .num b => decide (a ≤ b)

/-- JavaScript division. Negative zero is collapsed into 0 (so a finite value
divided by an infinity yields 0, and division of a nonzero finite value by
zero yields an infinity whose sign is that of the numerator). -/
def jdiv : JNum → JNum → JNum
  | .nan, _ => .nan
  | _, .nan => .nan
  | .posInf, .posInf => .nan
  | .posInf, .negInf => .nan
  | .negInf, .posInf => .nan
  | .negInf, .negInf => .nan
  | .posInf, .num b => if b < 0 then .negInf else .posInf
  | .negInf, .num b => if b < 0 then .posInf else .negInf
  | .num _, .posInf => .num 0
  | .num _, .negInf => .num 0
  | .num a, .num b =>
    if b = 0 then (if a = 0 then .nan else if a < 0 then .negInf else .posInf)
    else .num (a / b)

/-- JavaScript multiplication (needed for the 10x affordability check). -/
def jmul : JNum → JNum → JNum
  | .nan, _ => .nan
  | _, .nan => .nan
  | .posInf, .posInf => .posInf
  | .posInf, .negInf => .negInf
  | .negInf, .posInf => .negInf
  | .negInf, .negInf => .posInf
  | .posInf, .num b => if b = 0 then .nan else if b < 0 then .negInf else .posInf
  | .negInf, .num b => if b = 0 then .nan else if b < 0 then .posInf else .negInf
  | .num a, .posInf => if a = 0 then .nan else if a < 0 then .negInf else .posInf
  | .num a, .negInf => if a = 0 then .nan else if a < 0 then .posInf else .negInf
  | .num a, .num b => .num (a * b)

namespace Constants

/-- Constants.MAX_REASONABLE_ROI = 3600 seconds (one hour). -/
def MAX_REASONABLE_ROI : ℚ := 3600

/-- Constants.MIN_VALID_DELTA_CPS = 0.001. -/
def MIN_VALID_DELTA_CPS : ℚ := 1 / 1000

namespace UPGRADE_ESTIMATES

/-- Constants.UPGRADE_ESTIMATES.CONSERVATIVE_BOOST = 0.02. -/
def CONSERVATIVE_BOOST : ℚ := 1 / 50

/-- Constants.UPGRADE_ESTIMATES.CLICK_UPGRADE_WEIGHT = 0.01. -/
def CLICK_UPGRADE_WEIGHT : ℚ := 1 / 100

/-- Constants.UPGRADE_ESTIMATES.SYNERGY_MULTIPLIER = 0.5. -/
def SYNERGY_MULTIPLIER : ℚ := 1 / 2

end UPGRADE_ESTIMATES

/-- The constant 1.5 assumed clicks per second hard-coded in EconomicModel._estimateUpgradeCPS. -/
def estimatedClicksPerSec : ℚ := 3 / 2

end Constants

/-
Regex machinery.  The four patterns of Constants.UPGRADE_PATTERNS are simple
enough that their JavaScript regex semantics (leftmost match position, greedy
digit runs, ordered alternation) is reproduced exactly by the scanning
functions below.  All matching is performed on the already lowercased
character list of the description, as in the source (the /i flags are
therefore immaterial).
-/

/-- Numeric value of a nonempty list of decimal digit characters. -/
def natOfDigits (ds : List Char) : ℕ :=
  ds.foldl (fun n c => 10 * n + (c.toNat - 48)) 0

/-- ASCII lowering of one character.  This is what toLowerCase does on the
ASCII strings handled here (building names and upgrade descriptions). -/
def toLowerChar (c : Char) : Char :=
  if 65 ≤ c.toNat ∧ c.toNat ≤ 90 then Char.ofNat (c.toNat + 32) else c

/-- String.prototype.toLowerCase, as the lowered character list. -/
def lowerStr (s : String) : List Char :=
  s.data.map toLowerChar

/-- Whitespace for the purposes of the regex class \s (the descriptions only
ever contain ASCII whitespace). -/
def isWsChar (c : Char) : Bool :=
  c = ' ' || c = '\t' || c = '\n' || c = '\r'

/-- Consume the regex fragment \s+ (one or more whitespace characters),
returning the rest of the input, or none if no whitespace is present. -/
def dropWsPlus : List Char → Option (List Char)
  | [] => none
  | c :: r => if isWsChar c then some (r.dropWhile isWsChar) else none

/-- Consume a literal character sequence, returning the rest of the input. -/
def matchLit : List Char → List Char → Option (List Char)
  | [], s => some s
  | _ :: _, [] => none
  | c :: cs, d :: ds => if c = d then matchLit cs ds else none

/-- Attempt the pattern MULTIPLIER = (\d+)x\s+as\s+efficient at the start of
the input; on success return the captured number. -/
def matchMultiplierAt (s : List Char) : Option ℚ :=
  let ds := s.takeWhile Char.isDigit
  let r := s.dropWhile Char.isDigit
  if ds.isEmpty then none
  else
    match r with
    | 'x' :: r2 =>
      match dropWsPlus r2 with
      | none => none
      | some r3 =>
        match matchLit ("as".toList) r3 with
        | none => none
        | some r4 =>
          match dropWsPlus r4 with
          | none => none
          | some r5 => if (matchLit ("efficient".toList) r5).isSome then some (natOfDigits ds : ℚ) else none
    | _ => none

/-- Attempt the pattern PERCENTAGE_BOOST = (\d+)% at the start of the input. -/
def matchPercentAt (s : List Char) : Option ℚ :=
  let ds := s.takeWhile Char.isDigit
  let r := s.dropWhile Char.isDigit
  if ds.isEmpty then none
  else
    match r with
    | '%' :: _ => some (natOfDigits ds : ℚ)
    | _ => none

/-- Attempt the pattern FLAT_COOKIE_BONUS = \+(\d+\.?\d*)\s+cookies?\s+per at
the start of the input; on success return the captured decimal number.  The
optional "s" after "cookie" is tried greedily first and then dropped, exactly
as a backtracking regex engine would. -/
def matchFlatAt (s : List Char) : Option ℚ :=
  match s with
  | '+' :: r =>
    let ds := r.takeWhile Char.isDigit
    let r1 := r.dropWhile Char.isDigit
    if ds.isEmpty then none
    else
      let fr : List Char × List Char :=
        match r1 with
        | '.' :: rr => (rr.takeWhile Char.isDigit, rr.dropWhile Char.isDigit)
        | _ => ([], r1)
      let value : ℚ := (natOfDigits ds : ℚ) + (natOfDigits fr.1 : ℚ) / (10 : ℚ) ^ fr.1.length
      match dropWsPlus fr.2 with
      | none => none
      | some r3 =>
        match matchLit ("cookie".toList) r3 with
        | none => none
        | some r4 =>
          let perTail := fun (t : List Char) => (dropWsPlus t).bind (matchLit ("per".toList))
          match r4 with
          | 's' :: r5 =>
            if (perTail r5).isSome then some value
            else if (perTail r4).isSome then some value
            else none
          | _ => if (perTail r4).isSome then some value else none
  | _ => none

/-- The alternatives of the pattern BUILDING_REFERENCE, in the order listed in
Constants.js (all lowercase, as in the regex source). -/
def buildingNames : List String :=
  ["cursor", "grandma", "farm", "mine", "factory", "bank", "temple",
   "wizard tower", "shipment", "alchemy lab", "portal", "time machine",
   "antimatter condenser", "prism", "chancemaker", "fractal engine",
   "javascript console", "idleverse"]

/-- Attempt the BUILDING_REFERENCE alternation at the start of the input,
trying the alternatives in their listed order. -/
def matchBuildingRefAt (s : List Char) : Option String :=
  buildingNames.findSome? (fun n => if (matchLit n.toList s).isSome then some n else none)

/-- Scan the input left to right and return the first position at which the
given pattern matcher succeeds (JavaScript leftmost-match semantics). -/
def scanOption {α : Type} (f : List Char → Option α) : List Char → Option α
  | [] => none
  | c :: r =>
    match f (c :: r) with
    | some v => some v
    | none => scanOption f r

/-- desc.match(Constants.UPGRADE_PATTERNS.MULTIPLIER), returning the parsed capture. -/
def multiplierMatch (desc : List Char) : Option ℚ := scanOption matchMultiplierAt desc

/-- desc.match(Constants.UPGRADE_PATTERNS.PERCENTAGE_BOOST), returning the parsed capture. -/
def percentMatch (desc : List Char) : Option ℚ := scanOption matchPercentAt desc

/-- desc.match(Constants.UPGRADE_PATTERNS.FLAT_COOKIE_BONUS), returning the parsed capture. -/
def flatMatch (desc : List Char) : Option ℚ := scanOption matchFlatAt desc

/-- desc.match(Constants.UPGRADE_PATTERNS.BUILDING_REFERENCE), returning the matched name. -/
def buildingReferenceMatch (desc : List Char) : Option String := scanOption matchBuildingRefAt desc

/-- String.prototype.includes for a character-list pattern. -/
def containsSub (pat : List Char) : List Char → Bool
  | [] => (matchLit pat []).isSome
  | c :: r => (matchLit pat (c :: r)).isSome || containsSub pat r

/-
Normalized data model (the output shape of GameStateAdapter, which is the
input shape of EconomicModel).  Display-only metadata fields (displayName,
unlocked, bought, pool, isPermanent, currentOwned) are omitted: no claim and
no branch of the verified functions reads them.
-/

/-- A normalized building record as built by GameStateAdapter._extractBuildingState. -/
structure Building where
  id : String
  name : String
  owned : ℚ
  cost : ℚ
  baseCPS : ℚ
  totalCPS : ℚ
deriving DecidableEq

/-- A normalized upgrade record as built by GameStateAdapter._extractUpgradeState. -/
structure Upgrade where
  id : String
  name : String
  cost : ℚ
  description : String
  descriptionDetail : String
deriving DecidableEq

/-- A normalized game state as returned by GameStateAdapter.getGameState. -/
structure GameState where
  cookies : ℚ
  cookiesPerSecond : ℚ
  buildings : List Building
  upgrades : List Upgrade
deriving DecidableEq

/-- A purchase candidate as built by EconomicModel.calculateBuildingROI and
EconomicModel.calculateUpgradeROI (the six fields checked by
Validators.isValidCandidate). -/
structure Candidate where
  id : String
  type : String
  name : String
  cost : ℚ
  deltaCPS : ℚ
  roiTime : JNum
deriving DecidableEq

/-- EconomicModel._findAffectedBuilding: match a building name in the
(lowercased) description, then locate that building in the snapshot by
case-insensitive name comparison; the first hit wins. -/
def findAffectedBuilding (st : GameState) (description : List Char) : Option Building :=
  match buildingReferenceMatch description with
  | none => none
  | some buildingName => st.buildings.find? (fun b => lowerStr b.name == lowerStr buildingName)

/-- Pattern 1 of EconomicModel._estimateUpgradeCPS: explicit multiplier with a
located building; none both when the pattern fails to match and when the
referenced building is absent from the snapshot (the fall-through case). -/
def estimateP1 (st : GameState) (desc : List Char) : Option ℚ :=
  match multiplierMatch desc with
  | none => none
  | some multiplier =>
    match findAffectedBuilding st desc with
    | some b => some (b.totalCPS * (multiplier - 1))
    | none => none

/-- Pattern 2 of EconomicModel._estimateUpgradeCPS: percentage boost, applied
to the referenced building if one is found, otherwise to the global rate. -/
def estimateP2 (st : GameState) (desc : List Char) : Option ℚ :=
  match percentMatch desc with
  | none => none
  | some percent =>
    match findAffectedBuilding st desc with
    | some b => some (b.totalCPS * (percent / 100))
    | none => some (st.cookiesPerSecond * (percent / 100))

/-- Pattern 3 of EconomicModel._estimateUpgradeCPS: flat per-click bonus
valued at 1.5 assumed clicks per second. -/
def estimateP3 (desc : List Char) : Option ℚ :=
  match flatMatch desc with
  | none => none
  | some bonusPerClick => some (bonusPerClick * Constants.estimatedClicksPerSec)

/-- Pattern 4 of EconomicModel._estimateUpgradeCPS: bare building reference,
valued with the synergy multiplier. -/
def estimateP4 (st : GameState) (desc : List Char) : Option ℚ :=
  match findAffectedBuilding st desc with
  | some b => some (b.totalCPS * Constants.UPGRADE_ESTIMATES.SYNERGY_MULTIPLIER)
  | none => none

/-- Pattern 5 of EconomicModel._estimateUpgradeCPS: click or cursor keyword. -/
def estimateP5 (st : GameState) (desc : List Char) : Option ℚ :=
  if containsSub ("click".toList) desc || containsSub ("cursor".toList) desc
  then some (st.cookiesPerSecond * Constants.UPGRADE_ESTIMATES.CLICK_UPGRADE_WEIGHT)
  else none

/-- EconomicModel._estimateUpgradeCPS: lowercase the description, then try the
six patterns in priority order; the first pattern that produces a value wins,
and the unknown fallback applies the conservative boost to the global rate.
The upgrade object parameter of the source is unused by its body and is
therefore not a parameter here. -/
def estimateUpgradeCPS (st : GameState) (description : String) : ℚ :=
  let desc := lowerStr description
  match estimateP1 st desc with
  | some v => v
  | none =>
    match estimateP2 st desc with
    | some v => v
    | none =>
      match estimateP3 desc with
      | some v => v
      | none =>
        match estimateP4 st desc with
        | some v => v
        | none =>
          match estimateP5 st desc with
          | some v => v
          | none => st.cookiesPerSecond * Constants.UPGRADE_ESTIMATES.CONSERVATIVE_BOOST

/-- EconomicModel._calculateROITime, with full JavaScript number semantics:
deltas below the minimum threshold (any comparison with NaN being false) give
the Infinity sentinel, and the quotient is coerced to Infinity when it is not
finite or is negative. -/
def calculateROITime (cost deltaCPS : JNum) : JNum :=
  if jltb deltaCPS (.num Constants.MIN_VALID_DELTA_CPS) then .posInf
  else
    let roiTime := jdiv cost deltaCPS
    if !isFiniteJ roiTime || jltb roiTime (.num 0) then .posInf
    else roiTime

/-- EconomicModel.calculateBuildingROI. -/
def calculateBuildingROI (building : Building) : Option Candidate :=
  let cost := building.cost
  let baseCPS := building.baseCPS
  let owned := building.owned
  let totalCPS := building.totalCPS
  if cost ≤ 0 ∨ baseCPS < 0 then none
  else
    let multiplier : ℚ :=
      if 0 < owned ∧ 0 < totalCPS then
        let baseTotal := baseCPS * owned
        if 0 < baseTotal then totalCPS / baseTotal else 1
      else 1
    let deltaCPS := baseCPS * multiplier
    let roiTime := calculateROITime (.num cost) (.num deltaCPS)
    some { id := building.id, type := "building", name := building.name,
           cost := cost, deltaCPS := deltaCPS, roiTime := roiTime }

/-- EconomicModel.calculateUpgradeROI.  The JavaScript expression
upgrade.descriptionDetail || upgrade.description || '' selects the first
non-empty description string. -/
def calculateUpgradeROI (st : GameState) (upgrade : Upgrade) : Option Candidate :=
  let cost := upgrade.cost
  let description := if upgrade.descriptionDetail ≠ "" then upgrade.descriptionDetail else upgrade.description
  if cost ≤ 0 then none
  else
    let deltaCPS := estimateUpgradeCPS st description
    let roiTime := calculateROITime (.num cost) (.num deltaCPS)
    some { id := upgrade.id, type := "upgrade", name := upgrade.name,
           cost := cost, deltaCPS := deltaCPS, roiTime := roiTime }

/-- EconomicModel.getAllCandidates: buildings first, then upgrades, dropping
the null results of the per-item calculators. -/
def getAllCandidates (st : GameState) : List Candidate :=
  st.buildings.filterMap calculateBuildingROI ++ st.upgrades.filterMap (calculateUpgradeROI st)

/-
Ranking strategies (StrategyEngine.js and relaxed-advisor.js).

The candidate records of this model always carry the six required fields, so
the presence and typeof checks of Validators.isValidROI and
Validators.isValidCandidate specialize as below; the full dynamically-typed
versions of the validators appear further down for the totality analysis.
-/

/-- Validators.isValidROI specialized to a number argument: finite and
strictly positive (the source rejects non-numbers, non-finite values, and
values at most 0). -/
def isValidROIC (roiTime : JNum) : Bool :=
  isFiniteJ roiTime && !jleb roiTime (.num 0)

/-- Validators.isValidCandidate specialized to a candidate record: the six
required fields are present by construction, so the check reduces to the type
tag being building or upgrade and the cost being a positive number. -/
def isValidCandidateC (c : Candidate) : Bool :=
  (c.type == "building" || c.type == "upgrade") && !decide (c.cost ≤ 0)

/-- Rational sort key of a payback time.  Both strategies sort lists whose
elements have already passed the isValidROI filter, so every key taken during
a sort is the rational value of a finite payback time; the value chosen for
the never-sorted non-finite cases is irrelevant. -/
def roiKey : JNum → ℚ
  | .num q => q
  | _ => 0

/-- The GreedyStrategy sort comparator as a total boolean order: ascending
payback time, ties broken by descending rate delta.  On the finite payback
times actually sorted this is exactly the JavaScript comparator
(a, b) => a.roiTime - b.roiTime, falling back to b.deltaCPS - a.deltaCPS on
equal payback times; a stable sort with that comparator produces the unique
list sorted by this relation up to the order of fully tied elements. -/
def candidateLe (a b : Candidate) : Bool :=
  decide (roiKey a.roiTime < roiKey b.roiTime) ||
    (roiKey a.roiTime == roiKey b.roiTime && decide (b.deltaCPS ≤ a.deltaCPS))

/-- The RelaxedStrategy sort comparator (a, b) => a.roiTime - b.roiTime as a
total boolean order: ascending payback time only, no tie-break. -/
def relaxedLe (a b : Candidate) : Bool :=
  decide (roiKey a.roiTime ≤ roiKey b.roiTime)

/-- GreedyStrategy.evaluate: filter valid ROI, filter the one-hour ceiling,
filter structurally valid candidates, then stable-sort by the greedy
comparator. -/
def greedyEvaluate (candidates : List Candidate) : List Candidate :=
  ((candidates.filter (fun c => isValidROIC c.roiTime)).filter
      (fun c => jleb c.roiTime (.num Constants.MAX_REASONABLE_ROI))).filter
      (fun c => isValidCandidateC c)
    |>.mergeSort candidateLe

/-- RelaxedStrategy.evaluate (relaxed-advisor.js): filter valid ROI, filter
structurally valid candidates, then stable-sort by payback time only. -/
def relaxedEvaluate (candidates : List Candidate) : List Candidate :=
  ((candidates.filter (fun c => isValidROIC c.roiTime)).filter
      (fun c => isValidCandidateC c))
    |>.mergeSort relaxedLe

/-- Modelled from the spec: what GreedyStrategy.evaluate would produce with
only its step-2 time-ceiling filter removed — the same valid-ROI and
structural filters and the same sort comparator with its tie-break.  This is
the comparison point demanded by the Relaxed-policy refinement claim; it is
not itself a function of the repository. -/
def greedyNoCeilingEvaluate (candidates : List Candidate) : List Candidate :=
  ((candidates.filter (fun c => isValidROIC c.roiTime)).filter
      (fun c => isValidCandidateC c))
    |>.mergeSort candidateLe

/-
StrategyEngine.recommend (StrategyEngine.js).  A ranking policy is modelled
by what the engine can observe of it: whether it is an instance of
GreedyStrategy, and what its evaluate call does on a given candidate list —
throw, return a non-array value, or return an array.  The Error thrown when
the input is not an array cannot arise here because the input is a list by
type.
-/

/-- Outcome of calling a policy's evaluate on a candidate list. -/
inductive EvalOutcome where
  | throws : EvalOutcome
  | nonArray : EvalOutcome
  | arr (result : List Candidate) : EvalOutcome
deriving DecidableEq

/-- Discriminator: did evaluate return an array. -/
def EvalOutcome.isArr : EvalOutcome → Bool
  | .arr _ => true
  | _ => false

/-- A ranking policy as seen by StrategyEngine.recommend. -/
structure MStrategy where
  isGreedyInstance : Bool
  eval : List Candidate → EvalOutcome

/-- StrategyEngine.recommend: run the active policy; if it throws or returns
a non-array, fall back to a fresh GreedyStrategy unless the active policy
already is a GreedyStrategy instance, in which case the error is rethrown. -/
def recommend (s : MStrategy) (candidates : List Candidate) : Except Unit (List Candidate) :=
  match s.eval candidates with
  | .arr recommendations => .ok recommendations
  | _ =>
    if !s.isGreedyInstance then .ok (greedyEvaluate candidates)
    else .error ()

/-
Dynamically-typed model of Validators.js.  JavaScript values are modelled by
JSValue; property reads and the in operator are partial (they throw on
null/undefined receivers and on primitive receivers respectively), so every
validator returns in the Except monad, with error standing for a thrown
TypeError.
-/

/-- Model of a JavaScript value as far as the validators inspect one.
Functions are opaque; arrays are kept distinct from plain objects for
Array.isArray. -/
inductive JSValue where
  | vnum (n : JNum) : JSValue
  | vstr (s : String) : JSValue
  | vbool (b : Bool) : JSValue
  | vnull : JSValue
  | vundefined : JSValue
  | vfun : JSValue
  | vobj (fields : List (String × JSValue)) : JSValue
  | varr (elems : List JSValue) : JSValue

/-- JavaScript truthiness. -/
def truthy : JSValue → Bool
  | .vnum n =>
    match n with
    | .num q => decide (q ≠ 0)
    | .nan => false
    | _ => true
  | .vstr s => s ≠ ""
  | .vbool b => b
  | .vnull => false
  | .vundefined => false
  | .vfun => true
  | .vobj _ => true
  | .varr _ => true

/-- typeof. -/
def typeOf : JSValue → String
  | .vnum _ => "number"
  | .vstr _ => "string"
  | .vbool _ => "boolean"
  | .vnull => "object"
  | .vundefined => "undefined"
  | .vfun => "function"
  | .vobj _ => "object"
  | .varr _ => "object"

/-- Field lookup in an object literal. -/
def lookupField : List (String × JSValue) → String → JSValue
  | [], _ => .vundefined
  | (k, v) :: rest, key => if k == key then v else lookupField rest key

/-- Property read.  Throws (TypeError) on null and undefined; primitives are
boxed, and none of the properties the validators read exists on a boxed
primitive, an array or a function, so those reads yield undefined. -/
def getProp : JSValue → String → Except Unit JSValue
  | .vnull, _ => .error ()
  | .vundefined, _ => .error ()
  | .vobj fs, k => .ok (lookupField fs k)
  | _, _ => .ok .vundefined

/-- The in operator.  Throws (TypeError) whenever the right operand is not an
object; arrays and functions are objects carrying only their built-in
properties, none of which is a required candidate field. -/
def inOp (key : String) : JSValue → Except Unit Bool
  | .vobj fs => .ok (fs.any (fun p => p.1 == key))
  | .varr _ => .ok (key == "length")
  | .vfun => .ok (key == "length" || key == "name")
  | _ => .error ()

/-- Array.isArray. -/
def isArrayV : JSValue → Bool
  | .varr _ => true
  | _ => false

namespace Validators

/-- Validators.isValidGameObject. -/
def isValidGameObject (game : JSValue) : Except Unit Bool :=
  if !truthy game then .ok false
  else
    match getProp game ("cookies") with
    | .error e => .error e
    | .ok cookies =>
      if typeOf cookies != "number" then .ok false
      else
        match getProp game ("cookiesPs") with
        | .error e => .error e
        | .ok cookiesPs =>
          if typeOf cookiesPs != "number" then .ok false
          else
            match getProp game ("Objects") with
            | .error e => .error e
            | .ok objs =>
              if !truthy objs || typeOf objs != "object" then .ok false
              else
                match getProp game ("UpgradesInStore") with
                | .error e => .error e
                | .ok ups =>
                  if !truthy ups || !isArrayV ups then .ok false
                  else .ok true

/-- Validators.isValidBuilding. -/
def isValidBuilding (building : JSValue) : Except Unit Bool :=
  if !truthy building then .ok false
  else
    match getProp building ("name") with
    | .error e => .error e
    | .ok nameV =>
      match nameV with
      | .vstr s =>
        if s.length == 0 then .ok false
        else
          match getProp building ("amount") with
          | .error e => .error e
          | .ok amountV =>
            if typeOf amountV != "number" then .ok false
            else
              match getProp building ("price") with
              | .error e => .error e
              | .ok priceV =>
                match priceV with
                | .vnum p =>
                  if jltb p (.num 0) then .ok false
                  else
                    match getProp building ("cps") with
                    | .error e => .error e
                    | .ok cpsV =>
                      match cpsV with
                      | .vnum c => if jltb c (.num 0) then .ok false else .ok true
                      | _ => .ok false
                | _ => .ok false
      | _ => .ok false

/-- Validators.isValidUpgrade. -/
def isValidUpgrade (upgrade : JSValue) : Except Unit Bool :=
  if !truthy upgrade then .ok false
  else
    match getProp upgrade ("name") with
    | .error e => .error e
    | .ok nameV =>
      match nameV with
      | .vstr s =>
        if s.length == 0 then .ok false
        else
          match getProp upgrade ("getPrice") with
          | .error e => .error e
          | .ok g =>
            match getProp upgrade ("basePrice") with
            | .error e => .error e
            | .ok bp =>
              if typeOf g != "function" && typeOf bp != "number" then .ok false
              else .ok true
      | _ => .ok false

/-- Validators.isValidROI. -/
def isValidROI (roiTime : JSValue) : Except Unit Bool :=
  match roiTime with
  | .vnum n =>
    if !isFiniteJ n then .ok false
    else if jleb n (.num 0) then .ok false
    else .ok true
  | _ => .ok false

/-- Validators.isValidDeltaCPS. -/
def isValidDeltaCPS (deltaCPS : JSValue) : Except Unit Bool :=
  match deltaCPS with
  | .vnum n =>
    if !isFiniteJ n then .ok false
    else if jleb n (.num 0) then .ok false
    else .ok true
  | _ => .ok false

/-- Validators.isAffordable. -/
def isAffordable (cost cookies : JSValue) : Except Unit Bool :=
  match cost, cookies with
  | .vnum c, .vnum k => .ok (jleb c k)
  | _, _ => .ok false

/-- Validators.isReasonablyAffordable. -/
def isReasonablyAffordable (cost cookies : JSValue) : Except Unit Bool :=
  match cost, cookies with
  | .vnum c, .vnum k => .ok (jleb c (jmul k (.num 10)))
  | _, _ => .ok false

/-- Validators.isValidGameState. -/
def isValidGameState (gameState : JSValue) : Except Unit Bool :=
  if !truthy gameState then .ok false
  else
    match getProp gameState ("cookies") with
    | .error e => .error e
    | .ok cookies =>
      if typeOf cookies != "number" then .ok false
      else
        match getProp gameState ("cookiesPerSecond") with
        | .error e => .error e
        | .ok cps =>
          if typeOf cps != "number" then .ok false
          else
            match getProp gameState ("buildings") with
            | .error e => .error e
            | .ok bs =>
              if !isArrayV bs then .ok false
              else
                match getProp gameState ("upgrades") with
                | .error e => .error e
                | .ok us =>
                  if !isArrayV us then .ok false
                  else .ok true

/-- The required candidate fields checked by Validators.isValidCandidate. -/
def requiredProps : List String :=
  ["id", "type", "name", "cost", "deltaCPS", "roiTime"]

/-- The for-of loop of Validators.isValidCandidate over the required
properties: false as soon as one is missing, propagating a TypeError from the
in operator. -/
def checkRequired : List String → JSValue → Except Unit Bool
  | [], _ => .ok true
  | p :: ps, v =>
    match inOp p v with
    | .error e => .error e
    | .ok b => if !b then .ok false else checkRequired ps v

/-- Strict equality of a JavaScript value with a string literal. -/
def isStrV (v : JSValue) (s : String) : Bool :=
  match v with
  | .vstr t => t == s
  | _ => false

/-- Validators.isValidCandidate. -/
def isValidCandidate (candidate : JSValue) : Except Unit Bool :=
  if !truthy candidate then .ok false
  else
    match checkRequired requiredProps candidate with
    | .error e => .error e
    | .ok present =>
      if !present then .ok false
      else
        match getProp candidate ("type") with
        | .error e => .error e
        | .ok t =>
          if !isStrV t ("building") && !isStrV t ("upgrade") then .ok false
          else
            match getProp candidate ("cost") with
            | .error e => .error e
            | .ok c =>
              match c with
              | .vnum n => if jleb n (.num 0) then .ok false else .ok true
              | _ => .ok false

end Validators

/-- Discriminator for a non-throwing validator call. -/
def isOkE : Except Unit Bool → Bool
  | .ok _ => true
  | .error _ => false

/-
Helper lemmas shared by several claim theorems.
-/

/-- Characterization of a successful building ROI computation. -/
lemma buildingROI_fields {b : Building} {c : Candidate}
    (h : calculateBuildingROI b = some c) :
    c.type = "building" ∧ c.cost = b.cost ∧ 0 < b.cost ∧
      c.roiTime = calculateROITime (.num b.cost) (.num c.deltaCPS) := by
  unfold calculateBuildingROI at h
  by_cases hguard : b.cost ≤ 0 ∨ b.baseCPS < 0
  · rw [if_pos hguard] at h
    exact absurd h (by simp)
  · rw [if_neg hguard] at h
    push_neg at hguard
    injection h with h
    subst h
    exact ⟨rfl, rfl, hguard.1, rfl⟩

/-- Characterization of a successful upgrade ROI computation. -/
lemma upgradeROI_fields {st : GameState} {u : Upgrade} {c : Candidate}
    (h : calculateUpgradeROI st u = some c) :
    c.type = "upgrade" ∧ c.cost = u.cost ∧ 0 < u.cost ∧
      c.deltaCPS = estimateUpgradeCPS st
        (if u.descriptionDetail ≠ "" then u.descriptionDetail else u.description) ∧
      c.roiTime = calculateROITime (.num u.cost) (.num c.deltaCPS) := by
  unfold calculateUpgradeROI at h
  rcases le_or_lt u.cost 0 with hc | hc
  · rw [if_pos hc] at h
    exact absurd h (by simp)
  · rw [if_neg (not_le.mpr hc)] at h
    injection h with h
    subst h
    exact ⟨rfl, rfl, hc, rfl, rfl⟩

/-- Any candidate produced by the economic model comes from a building or an
upgrade of the snapshot. -/
lemma mem_getAllCandidates {st : GameState} {c : Candidate}
    (h : c ∈ getAllCandidates st) :
    (∃ b ∈ st.buildings, calculateBuildingROI b = some c) ∨
      (∃ u ∈ st.upgrades, calculateUpgradeROI st u = some c) := by
  unfold getAllCandidates at h
  rcases List.mem_append.mp h with h | h
  · exact Or.inl (List.mem_filterMap.mp h)
  · exact Or.inr (List.mem_filterMap.mp h)

/-- Claim C1: the upgrade rate-delta estimator tests the six heuristic
patterns in priority order with the first match winning; in particular, when
the explicit-multiplier pattern matches but the referenced building is not in
the snapshot, the estimator falls through to the later patterns (conjunct 2)
instead of producing a pattern-1 estimate. -/
theorem estimateUpgradeCPS_priority :
    (∀ (st : GameState) (d : String) (m : ℚ) (b : Building),
      multiplierMatch (lowerStr d) = some m →
      findAffectedBuilding st (lowerStr d) = some b →
      estimateUpgradeCPS st d = b.totalCPS * (m - 1)) ∧
    (∀ (st : GameState) (d : String) (m p : ℚ),
      multiplierMatch (lowerStr d) = some m →
      findAffectedBuilding st (lowerStr d) = none →
      percentMatch (lowerStr d) = some p →
      estimateUpgradeCPS st d = st.cookiesPerSecond * (p / 100)) ∧
    (∀ (st : GameState) (d : String) (p : ℚ) (b : Building),
      multiplierMatch (lowerStr d) = none →
      percentMatch (lowerStr d) = some p →
      findAffectedBuilding st (lowerStr d) = some b →
      estimateUpgradeCPS st d = b.totalCPS * (p / 100)) ∧
    (∀ (st : GameState) (d : String) (f : ℚ),
      estimateP1 st (lowerStr d) = none →
      percentMatch (lowerStr d) = none →
      flatMatch (lowerStr d) = some f →
      estimateUpgradeCPS st d = f * Constants.estimatedClicksPerSec) ∧
    (∀ (st : GameState) (d : String) (b : Building),
      estimateP1 st (lowerStr d) = none →
      percentMatch (lowerStr d) = none →
      flatMatch (lowerStr d) = none →
      findAffectedBuilding st (lowerStr d) = some b →
      estimateUpgradeCPS st d = b.totalCPS * Constants.UPGRADE_ESTIMATES.SYNERGY_MULTIPLIER) ∧
    (∀ (st : GameState) (d : String),
      estimateP1 st (lowerStr d) = none →
      percentMatch (lowerStr d) = none →
      flatMatch (lowerStr d) = none →
      findAffectedBuilding st (lowerStr d) = none →
      (containsSub ("click".toList) (lowerStr d) ||
        containsSub ("cursor".toList) (lowerStr d)) = true →
      estimateUpgradeCPS st d = st.cookiesPerSecond * Constants.UPGRADE_ESTIMATES.CLICK_UPGRADE_WEIGHT) ∧
    (∀ (st : GameState) (d : String),
      estimateP1 st (lowerStr d) = none →
      percentMatch (lowerStr d) = none →
      flatMatch (lowerStr d) = none →
      findAffectedBuilding st (lowerStr d) = none →
      (containsSub ("click".toList) (lowerStr d) ||
        containsSub ("cursor".toList) (lowerStr d)) = false →
      estimateUpgradeCPS st d = st.cookiesPerSecond * Constants.UPGRADE_ESTIMATES.CONSERVATIVE_BOOST) := by
  refine ⟨?_, ?_, ?_, ?_, ?_, ?_, ?_⟩
  · intro st d m b h1 h2
    unfold estimateUpgradeCPS
    simp only [estimateP1, h1, h2]
  · intro st d m p h1 h2 h3
    unfold estimateUpgradeCPS
    simp only [estimateP1, estimateP2, h1, h2, h3]
  · intro st d p b h1 h2 h3
    unfold estimateUpgradeCPS
    simp only [estimateP1, estimateP2, h1, h2, h3]
  · intro st d f h1 h2 h3
    unfold estimateUpgradeCPS
    simp only [estimateP2, estimateP3, h1, h2, h3]
  · intro st d b h1 h2 h3 h4
    unfold estimateUpgradeCPS
    simp only [estimateP2, estimateP3, estimateP4, h1, h2, h3, h4]
  · intro st d h1 h2 h3 h4 h5
    unfold estimateUpgradeCPS
    simp only [estimateP2, estimateP3, estimateP4, estimateP5, h1, h2, h3, h4, h5, if_true]
  · intro st d h1 h2 h3 h4 h5
    unfold estimateUpgradeCPS
    simp only [estimateP2, estimateP3, estimateP4, estimateP5, h1, h2, h3, h4, h5,
      Bool.false_eq_true, if_false]

/-- Snapshot with a positive global rate and no buildings, exercising the
pattern-1 fall-through of the estimator. -/
def fallThroughState : GameState :=
  { cookies := 0, cookiesPerSecond := 100, buildings := [], upgrades := [] }

/-- Description matched by both the multiplier pattern and the percentage
pattern, with a building reference that no snapshot building carries. -/
def fallThroughDesc : String := "Grandmas are 2x as efficient and gain 50%"

/-- Witness for claim C1: on the concrete fall-through description, the
multiplier pattern matches (capturing 2) but the building lookup fails, so
the estimator lands on the percentage pattern and yields 100 * 50% = 50. -/
theorem estimateUpgradeCPS_priority_witness :
    estimateUpgradeCPS fallThroughState fallThroughDesc = 50 := by
  have h := estimateUpgradeCPS_priority.2.1 fallThroughState fallThroughDesc 2 50
    (by decide) (by decide) (by decide)
  rw [h]
  norm_num [fallThroughState]

/-- Upgrade with an opaque description that matches none of the patterns. -/
def unknownUpgrade : Upgrade :=
  { id := "upgrade_0", name := "Mystery", cost := 1000, description := "???",
    descriptionDetail := "" }

/-- Snapshot whose global rate is zero. -/
def zeroRateState : GameState :=
  { cookies := 0, cookiesPerSecond := 0, buildings := [], upgrades := [unknownUpgrade] }

/-- Counterexample to claim C2: on a snapshot with zero global rate, an
upgrade with positive cost and an unmatched description yields a candidate
whose rateDelta is 0 (the unknown fallback is rate * 0.02), not strictly
positive. -/
theorem calculateUpgradeROI_zero_deltaCPS_cex :
    0 < unknownUpgrade.cost ∧
      (calculateUpgradeROI zeroRateState unknownUpgrade).map Candidate.deltaCPS = some 0 := by
  have hcost : ¬unknownUpgrade.cost ≤ 0 := by norm_num [unknownUpgrade]
  have hdesc : (if unknownUpgrade.descriptionDetail ≠ "" then unknownUpgrade.descriptionDetail
      else unknownUpgrade.description) = "???" := by decide
  have hest : estimateUpgradeCPS zeroRateState "???" =
      zeroRateState.cookiesPerSecond * Constants.UPGRADE_ESTIMATES.CONSERVATIVE_BOOST :=
    estimateUpgradeCPS_priority.2.2.2.2.2.2 zeroRateState "???"
      (by decide) (by decide) (by decide) (by decide) (by decide)
  refine ⟨not_le.mp hcost, ?_⟩
  simp only [calculateUpgradeROI, hdesc, if_neg hcost, Option.map_some']
  rw [hest]
  norm_num [zeroRateState]

/-- Claim C2 (amended): every upgrade with positive cost yields a candidate;
when the description matches none of the patterns the rateDelta equals
rate * 0.02, which is strictly positive whenever the global rate is strictly
positive (and is 0 when the rate is 0, so strict positivity does not hold
unconditionally). -/
theorem calculateUpgradeROI_deltaCPS_amended :
    ∀ (st : GameState) (u : Upgrade), 0 < u.cost →
      ∃ c, calculateUpgradeROI st u = some c ∧
        (∀ d : String,
          d = (if u.descriptionDetail ≠ "" then u.descriptionDetail else u.description) →
          estimateP1 st (lowerStr d) = none →
          percentMatch (lowerStr d) = none →
          flatMatch (lowerStr d) = none →
          findAffectedBuilding st (lowerStr d) = none →
          (containsSub ("click".toList) (lowerStr d) ||
            containsSub ("cursor".toList) (lowerStr d)) = false →
          c.deltaCPS = st.cookiesPerSecond * Constants.UPGRADE_ESTIMATES.CONSERVATIVE_BOOST ∧
            (0 < st.cookiesPerSecond → 0 < c.deltaCPS)) := by
  intro st u hcost
  unfold calculateUpgradeROI
  rw [if_neg (not_le.mpr hcost)]
  refine ⟨_, rfl, ?_⟩
  intro d hd h1 h2 h3 h4 h5
  have hest := estimateUpgradeCPS_priority.2.2.2.2.2.2 st d h1 h2 h3 h4 h5
  rw [← hd] at *
  constructor
  · simpa [hd] using hest
  · intro hrate
    have : estimateUpgradeCPS st d = st.cookiesPerSecond * Constants.UPGRADE_ESTIMATES.CONSERVATIVE_BOOST := hest
    simp only [hd] at this ⊢
    rw [this]
    have : (0 : ℚ) < Constants.UPGRADE_ESTIMATES.CONSERVATIVE_BOOST := by
      norm_num [Constants.UPGRADE_ESTIMATES.CONSERVATIVE_BOOST]
    positivity

/-- Payback-time safety: the ROI-time computation yields the Infinity
sentinel or a non-negative finite number, for any numeric inputs. -/
lemma calcROITime_never_nan_or_neg (cost deltaCPS : JNum) :
    calculateROITime cost deltaCPS = .posInf ∨
      ∃ q : ℚ, 0 ≤ q ∧ calculateROITime cost deltaCPS = .num q := by
  unfold calculateROITime
  by_cases h : jltb deltaCPS (.num Constants.MIN_VALID_DELTA_CPS) = true
  · left
    rw [if_pos h]
  · rw [if_neg h]
    cases hr : jdiv cost deltaCPS with
    | nan => left; simp [hr, isFiniteJ]
    | posInf => left; simp [hr, isFiniteJ]
    | negInf => left; simp [hr, isFiniteJ]
    | num q =>
      by_cases hq : q < 0
      · left
        simp [hr, isFiniteJ, jltb, hq]
      · right
        exact ⟨q, le_of_not_lt hq, by simp [hr, isFiniteJ, jltb, hq]⟩

/-- Claim C3: the payback-time computation returns the Infinity sentinel when
the rate delta is below the minimum-meaningful threshold, otherwise the
quotient coerced to Infinity when non-finite or negative; consequently it is
never NaN and never negative, and neither is the roiTime of any candidate the
economic model emits. -/
theorem calculateROITime_safety :
    (∀ cost deltaCPS : JNum,
      jltb deltaCPS (.num Constants.MIN_VALID_DELTA_CPS) = true →
      calculateROITime cost deltaCPS = .posInf) ∧
    (∀ cost deltaCPS : JNum,
      jltb deltaCPS (.num Constants.MIN_VALID_DELTA_CPS) = false →
      ((isFiniteJ (jdiv cost deltaCPS) = false ∨ jltb (jdiv cost deltaCPS) (.num 0) = true) →
        calculateROITime cost deltaCPS = .posInf) ∧
      (isFiniteJ (jdiv cost deltaCPS) = true → jltb (jdiv cost deltaCPS) (.num 0) = false →
        calculateROITime cost deltaCPS = jdiv cost deltaCPS)) ∧
    (∀ cost deltaCPS : JNum,
      calculateROITime cost deltaCPS = .posInf ∨
        ∃ q : ℚ, 0 ≤ q ∧ calculateROITime cost deltaCPS = .num q) ∧
    (∀ (st : GameState) (c : Candidate), c ∈ getAllCandidates st →
      c.roiTime = .posInf ∨ ∃ q : ℚ, 0 ≤ q ∧ c.roiTime = .num q) := by
  refine ⟨?_, ?_, calcROITime_never_nan_or_neg, ?_⟩
  · intro cost deltaCPS h
    unfold calculateROITime
    rw [if_pos h]
  · intro cost deltaCPS h
    constructor
    · intro hor
      unfold calculateROITime
      rw [if_neg (by simp [h])]
      rcases hor with hf | hneg
      · simp [hf]
      · simp [hneg]
    · intro hf hneg
      unfold calculateROITime
      rw [if_neg (by simp [h])]
      simp [hf, hneg]
  · intro st c hc
    rcases mem_getAllCandidates hc with ⟨b, _, hb⟩ | ⟨u, _, hu⟩
    · rw [(buildingROI_fields hb).2.2.2]
      exact calcROITime_never_nan_or_neg _ _
    · rw [(upgradeROI_fields hu).2.2.2.2]
      exact calcROITime_never_nan_or_neg _ _

/-- Witness for claim C3: a rate delta of 0 is below the threshold and gives
the Infinity sentinel, and a regular division coerces to nothing: 15 cookies
at +0.1 per second pay back in 150 seconds. -/
theorem calculateROITime_safety_witness :
    calculateROITime (.num 15) (.num 0) = .posInf ∧
      calculateROITime (.num 15) (.num 2) = jdiv (.num 15) (.num 2) := by
  constructor
  · exact calculateROITime_safety.1 (.num 15) (.num 0)
      (by norm_num [jltb, Constants.MIN_VALID_DELTA_CPS])
  · exact (calculateROITime_safety.2.1 (.num 15) (.num 2)
        (by norm_num [jltb, Constants.MIN_VALID_DELTA_CPS])).2
      (by norm_num [jdiv, isFiniteJ]) (by norm_num [jdiv, jltb])

/-- Claim C4: for a building with positive cost and non-negative unit rate, a
candidate is produced whose rate delta is the unit rate times the
reconstructed multiplier, which is totalRate / (unitRate * owned) precisely
when owned, totalRate and unitRate are all positive and 1.0 otherwise; a
building with owned = 0 yields rate delta exactly its unit rate. -/
theorem calculateBuildingROI_multiplier :
    ∀ b : Building, 0 < b.cost → 0 ≤ b.baseCPS →
      ∃ c, calculateBuildingROI b = some c ∧
        c.deltaCPS = b.baseCPS *
          (if 0 < b.owned ∧ 0 < b.totalCPS ∧ 0 < b.baseCPS
            then b.totalCPS / (b.baseCPS * b.owned) else 1) ∧
        (b.owned = 0 → c.deltaCPS = b.baseCPS) := by
  intro b hc hb
  have hguard : ¬(b.cost ≤ 0 ∨ b.baseCPS < 0) := by
    push_neg
    exact ⟨hc, hb⟩
  unfold calculateBuildingROI
  rw [if_neg hguard]
  have hmult : (if 0 < b.owned ∧ 0 < b.totalCPS then
        (if 0 < b.baseCPS * b.owned then b.totalCPS / (b.baseCPS * b.owned) else 1)
      else 1) =
      (if 0 < b.owned ∧ 0 < b.totalCPS ∧ 0 < b.baseCPS
        then b.totalCPS / (b.baseCPS * b.owned) else 1) := by
    by_cases h1 : 0 < b.owned ∧ 0 < b.totalCPS
    · by_cases h2 : 0 < b.baseCPS
      · rw [if_pos h1, if_pos (mul_pos h2 h1.1), if_pos ⟨h1.1, h1.2, h2⟩]
      · have hb0 : b.baseCPS = 0 := le_antisymm (not_lt.mp h2) hb
        rw [if_pos h1, if_neg (by rw [hb0]; simp),
          if_neg (fun hx => h2 hx.2.2)]
    · rw [if_neg h1, if_neg (fun hx => h1 ⟨hx.1, hx.2.1⟩)]
  refine ⟨_, rfl, ?_, ?_⟩
  · show b.baseCPS * _ = _
    rw [hmult]
  · intro h0
    show b.baseCPS * _ = _
    rw [hmult, if_neg (fun hx => by rw [h0] at hx; exact lt_irrefl 0 hx.1), mul_one]

/-- The Grandma scenario of the spec's testable-properties section: 5 owned,
unit rate 1, observed total rate 6, so the multiplier is 6/5. -/
def grandmaBuilding : Building :=
  { id := "Grandma", name := "Grandma", owned := 5, cost := 1000, baseCPS := 1, totalCPS := 6 }

/-- Witness for claim C4 at the concrete Grandma building: the produced rate
delta is 1 * 6/(1*5) = 6/5. -/
theorem calculateBuildingROI_multiplier_witness :
    (calculateBuildingROI grandmaBuilding).map Candidate.deltaCPS = some (6 / 5) ∧
      ∃ c, calculateBuildingROI grandmaBuilding = some c ∧
        c.deltaCPS = grandmaBuilding.baseCPS *
          (if 0 < grandmaBuilding.owned ∧ 0 < grandmaBuilding.totalCPS ∧ 0 < grandmaBuilding.baseCPS
            then grandmaBuilding.totalCPS / (grandmaBuilding.baseCPS * grandmaBuilding.owned) else 1) ∧
        (grandmaBuilding.owned = 0 → c.deltaCPS = grandmaBuilding.baseCPS) := by
  constructor
  · norm_num [calculateBuildingROI, grandmaBuilding]
  · exact calculateBuildingROI_multiplier grandmaBuilding
      (by norm_num [grandmaBuilding]) (by norm_num [grandmaBuilding])

/-
Sortedness of the greedy ranking.
-/

/-- The greedy comparator order is transitive. -/
lemma candidateLe_trans : ∀ a b c : Candidate,
    candidateLe a b = true → candidateLe b c = true → candidateLe a c = true := by
  intro a b c hab hbc
  simp only [candidateLe, Bool.or_eq_true, Bool.and_eq_true, decide_eq_true_eq,
    beq_iff_eq] at hab hbc ⊢
  rcases hab with h1 | ⟨h1, h2⟩ <;> rcases hbc with h3 | ⟨h3, h4⟩
  · exact Or.inl (lt_trans h1 h3)
  · exact Or.inl (h3 ▸ h1)
  · exact Or.inl (by rw [h1]; exact h3)
  · exact Or.inr ⟨h1.trans h3, le_trans h4 h2⟩

/-- The greedy comparator order is total. -/
lemma candidateLe_total : ∀ a b : Candidate,
    (candidateLe a b || candidateLe b a) = true := by
  intro a b
  simp only [candidateLe, Bool.or_eq_true, Bool.and_eq_true, decide_eq_true_eq, beq_iff_eq]
  rcases lt_trichotomy (roiKey a.roiTime) (roiKey b.roiTime) with h | h | h
  · exact Or.inl (Or.inl h)
  · rcases le_total b.deltaCPS a.deltaCPS with hd | hd
    · exact Or.inl (Or.inr ⟨h, hd⟩)
    · exact Or.inr (Or.inr ⟨h.symm, hd⟩)
  · exact Or.inr (Or.inl h)

/-- A payback time accepted by the isValidROI filter is a strictly positive
finite number. -/
lemma roiTime_finite_of_validROIC {c : Candidate} (h : isValidROIC c.roiTime = true) :
    ∃ q : ℚ, 0 < q ∧ c.roiTime = .num q := by
  cases hr : c.roiTime with
  | num q =>
    rw [hr] at h
    simp only [isValidROIC, isFiniteJ, jleb, Bool.true_and, Bool.not_eq_true',
      decide_eq_false_iff_not, not_le] at h
    exact ⟨q, h, rfl⟩
  | nan => rw [hr] at h; simp [isValidROIC, isFiniteJ] at h
  | posInf => rw [hr] at h; simp [isValidROIC, isFiniteJ] at h
  | negInf => rw [hr] at h; simp [isValidROIC, isFiniteJ] at h

/-- Claim C5: in a greedy-ranked result, payback times are non-decreasing,
and on equal payback times the rate delta is non-increasing. -/
theorem greedyEvaluate_sorted (cs : List Candidate) :
    (greedyEvaluate cs).Pairwise (fun a b =>
      jleb a.roiTime b.roiTime = true ∧
        (a.roiTime = b.roiTime → b.deltaCPS ≤ a.deltaCPS)) := by
  unfold greedyEvaluate
  refine (List.sorted_mergeSort candidateLe_trans candidateLe_total _).imp_of_mem ?_
  intro a b ha hb hle
  have ha' := (List.mem_filter.mp (List.mem_mergeSort.mp ha)).1
  have hb' := (List.mem_filter.mp (List.mem_mergeSort.mp hb)).1
  obtain ⟨qa, hqa, ha0⟩ := roiTime_finite_of_validROIC
    (List.mem_filter.mp (List.mem_filter.mp ha').1).2
  obtain ⟨qb, hqb, hb0⟩ := roiTime_finite_of_validROIC
    (List.mem_filter.mp (List.mem_filter.mp hb').1).2
  simp only [candidateLe, Bool.or_eq_true, Bool.and_eq_true, decide_eq_true_eq,
    beq_iff_eq, ha0, hb0, roiKey] at hle
  rcases hle with hlt | ⟨heq, hd⟩
  · refine ⟨by rw [ha0, hb0]; simp [jleb]; exact le_of_lt hlt, ?_⟩
    intro heq
    rw [ha0, hb0] at heq
    injection heq with heq
    exact absurd heq (ne_of_lt hlt)
  · refine ⟨by rw [ha0, hb0]; simp [jleb]; exact le_of_eq heq, fun _ => hd⟩

/-- Candidate list exercising the greedy ordering: a tie at payback 10 and a
strictly better option at payback 5. -/
def wSortCs : List Candidate :=
  [{ id := "a", type := "building", name := "a", cost := 1, deltaCPS := 1, roiTime := .num 10 },
   { id := "b", type := "building", name := "b", cost := 1, deltaCPS := 2, roiTime := .num 10 },
   { id := "c", type := "building", name := "c", cost := 1, deltaCPS := 1, roiTime := .num 5 }]

/-- Witness for claim C5 at a concrete candidate list. -/
theorem greedyEvaluate_sorted_witness :
    (greedyEvaluate wSortCs).Pairwise (fun a b =>
      jleb a.roiTime b.roiTime = true ∧
        (a.roiTime = b.roiTime → b.deltaCPS ≤ a.deltaCPS)) :=
  greedyEvaluate_sorted wSortCs

/-- Claim C6: no candidate in a greedy-ranked result has a non-finite payback
time, a payback time at most 0, or a payback time above the one-hour
ceiling. -/
theorem greedyEvaluate_filter_sound :
    ∀ (cs : List Candidate) (c : Candidate), c ∈ greedyEvaluate cs →
      isFiniteJ c.roiTime = true ∧ jltb (.num 0) c.roiTime = true ∧
        jleb c.roiTime (.num Constants.MAX_REASONABLE_ROI) = true := by
  intro cs c hc
  unfold greedyEvaluate at hc
  have h3 := List.mem_filter.mp (List.mem_mergeSort.mp hc)
  have h2 := List.mem_filter.mp h3.1
  have h1 := List.mem_filter.mp h2.1
  obtain ⟨q, hq, hr⟩ := roiTime_finite_of_validROIC h1.2
  refine ⟨by rw [hr]; rfl, ?_, by simpa using h2.2⟩
  rw [hr]
  simpa [jltb] using hq

/-- A candidate passing every greedy filter. -/
def soundCandidate : Candidate :=
  { id := "w", type := "building", name := "w", cost := 1, deltaCPS := 1, roiTime := .num 100 }

/-- Witness for claim C6: the candidate surviving the greedy ranking of a
concrete singleton list has a finite, positive payback time within the
ceiling. -/
theorem greedyEvaluate_filter_sound_witness :
    isFiniteJ soundCandidate.roiTime = true ∧
      jltb (.num 0) soundCandidate.roiTime = true ∧
      jleb soundCandidate.roiTime (.num Constants.MAX_REASONABLE_ROI) = true := by
  refine greedyEvaluate_filter_sound [soundCandidate] soundCandidate ?_
  have h : greedyEvaluate [soundCandidate] = [soundCandidate] := by
    unfold greedyEvaluate
    norm_num [soundCandidate, isValidROIC, isFiniteJ, jleb, isValidCandidateC,
      Constants.MAX_REASONABLE_ROI, List.filter]
  rw [h]
  exact List.mem_singleton_self _

/-- Evaluation of the merge sort on a two-element list. -/
lemma mergeSort_pair {α : Type} (le : α → α → Bool) (a b : α) :
    List.mergeSort [a, b] le = if le a b then [a, b] else [b, a] := by
  rw [List.mergeSort]
  by_cases h : le a b <;>
    simp [List.splitInTwo, List.splitAt, List.splitAt.go, List.merge, h]

/-- Candidates tied at payback time 10, in ascending rate-delta order. -/
def tieFirst : Candidate :=
  { id := "first", type := "building", name := "first", cost := 1, deltaCPS := 1,
    roiTime := .num 10 }

/-- Second tied candidate, with the larger rate delta. -/
def tieSecond : Candidate :=
  { id := "second", type := "building", name := "second", cost := 1, deltaCPS := 2,
    roiTime := .num 10 }

/-- Shared evaluation of the relaxed filter chain on the tied pair. -/
lemma tie_filter_eval :
    (([tieFirst, tieSecond].filter (fun c => isValidROIC c.roiTime)).filter
      (fun c => isValidCandidateC c)) = [tieFirst, tieSecond] := by
  norm_num [tieFirst, tieSecond, isValidROIC, isFiniteJ, jleb, isValidCandidateC, List.filter]

/-- Counterexample to claim C7: on two candidates tied at payback time 10
with rate deltas 1 and 2, the Relaxed policy keeps the input order (its sort
has no tie-break) while Greedy without its time-ceiling filter swaps them by
descending rate delta, so the two outputs differ. -/
theorem relaxedEvaluate_neq_greedyNoCeiling_cex :
    relaxedEvaluate [tieFirst, tieSecond] ≠ greedyNoCeilingEvaluate [tieFirst, tieSecond] := by
  have hr : relaxedEvaluate [tieFirst, tieSecond] = [tieFirst, tieSecond] := by
    unfold relaxedEvaluate
    rw [tie_filter_eval, mergeSort_pair]
    norm_num [relaxedLe, roiKey, tieFirst, tieSecond]
  have hg : greedyNoCeilingEvaluate [tieFirst, tieSecond] = [tieSecond, tieFirst] := by
    unfold greedyNoCeilingEvaluate
    rw [tie_filter_eval, mergeSort_pair]
    norm_num [candidateLe, roiKey, tieFirst, tieSecond]
  rw [hr, hg]
  decide

/-- The relaxed comparator order is transitive. -/
lemma relaxedLe_trans : ∀ a b c : Candidate,
    relaxedLe a b = true → relaxedLe b c = true → relaxedLe a c = true := by
  intro a b c hab hbc
  simp only [relaxedLe, decide_eq_true_eq] at hab hbc ⊢
  exact le_trans hab hbc

/-- The relaxed comparator order is total. -/
lemma relaxedLe_total : ∀ a b : Candidate, (relaxedLe a b || relaxedLe b a) = true := by
  intro a b
  simp only [relaxedLe, Bool.or_eq_true, decide_eq_true_eq]
  exact le_total _ _

/-- Two lists that are permutations of each other and are both pairwise
ordered by an asymmetric relation are equal. -/
lemma eq_of_perm_of_pairwise_asymm {α : Type} {r : α → α → Prop}
    (asym : ∀ a b, r a b → ¬r b a) :
    ∀ l₁ l₂ : List α, l₁.Perm l₂ → l₁.Pairwise r → l₂.Pairwise r → l₁ = l₂ := by
  intro l₁
  induction l₁ with
  | nil =>
    intro l₂ hp _ _
    exact (hp.symm.eq_nil).symm
  | cons a t ih =>
    intro l₂ hp h1 h2
    have ha : a ∈ l₂ := hp.mem_iff.mp (List.mem_cons_self a t)
    cases l₂ with
    | nil => exact absurd ha (List.not_mem_nil a)
    | cons b t₂ =>
      rcases List.mem_cons.mp ha with hab | ha'
      · subst hab
        rw [ih t₂ hp.cons_inv h1.of_cons h2.of_cons]
      · have hba : r b a := (List.pairwise_cons.mp h2).1 a ha'
        have hb : b ∈ a :: t := hp.symm.mem_iff.mp (List.mem_cons_self b t₂)
        rcases List.mem_cons.mp hb with hba' | hb'
        · rw [hba'] at hba
          exact absurd hba (asym a a hba)
        · exact absurd hba (asym a b ((List.pairwise_cons.mp h1).1 b hb'))

/-- Every member of the relaxed filter chain has a finite positive payback. -/
lemma mem_relaxed_filter_finite {cs : List Candidate} {c : Candidate}
    (h : c ∈ (cs.filter (fun c => isValidROIC c.roiTime)).filter
      (fun c => isValidCandidateC c)) :
    ∃ q : ℚ, 0 < q ∧ c.roiTime = .num q :=
  roiTime_finite_of_validROIC (List.mem_filter.mp (List.mem_filter.mp h).1).2

/-- Claim C7 (amended): the Relaxed policy applies the same non-finite and
structural filters as Greedy minus its time-ceiling step and returns the same
elements sorted ascending by payback time, but it drops Greedy's tie-break:
candidates with equal payback times keep their input order, so the two
outputs coincide exactly when the surviving payback times are pairwise
distinct. -/
theorem relaxedEvaluate_amended :
    (∀ cs : List Candidate, (relaxedEvaluate cs).Perm (greedyNoCeilingEvaluate cs)) ∧
    (∀ cs : List Candidate, (relaxedEvaluate cs).Pairwise
      (fun a b => jleb a.roiTime b.roiTime = true)) ∧
    (∀ cs : List Candidate,
      ((cs.filter (fun c => isValidROIC c.roiTime)).filter
          (fun c => isValidCandidateC c)).Pairwise
        (fun a b => a.roiTime ≠ b.roiTime) →
      relaxedEvaluate cs = greedyNoCeilingEvaluate cs) := by
  refine ⟨?_, ?_, ?_⟩
  · intro cs
    exact (List.mergeSort_perm _ _).trans (List.mergeSort_perm _ _).symm
  · intro cs
    unfold relaxedEvaluate
    refine (List.sorted_mergeSort relaxedLe_trans relaxedLe_total _).imp_of_mem ?_
    intro a b ha hb hle
    obtain ⟨qa, _, ha0⟩ := mem_relaxed_filter_finite (List.mem_mergeSort.mp ha)
    obtain ⟨qb, _, hb0⟩ := mem_relaxed_filter_finite (List.mem_mergeSort.mp hb)
    simp only [relaxedLe, decide_eq_true_eq, ha0, hb0, roiKey] at hle
    rw [ha0, hb0]
    simpa [jleb] using hle
  · intro cs hdist
    have hkey : ((cs.filter (fun c => isValidROIC c.roiTime)).filter
        (fun c => isValidCandidateC c)).Pairwise
        (fun a b => roiKey a.roiTime ≠ roiKey b.roiTime) := by
      refine hdist.imp_of_mem ?_
      intro a b ha hb hne
      obtain ⟨qa, _, ha0⟩ := mem_relaxed_filter_finite ha
      obtain ⟨qb, _, hb0⟩ := mem_relaxed_filter_finite hb
      intro hq
      rw [ha0, hb0] at hq hne
      simp only [roiKey] at hq
      exact hne (by rw [hq])
    have hkeyR : (relaxedEvaluate cs).Pairwise
        (fun a b => roiKey a.roiTime ≠ roiKey b.roiTime) := by
      unfold relaxedEvaluate
      exact (List.Perm.pairwise_iff (fun h => h.symm) (List.mergeSort_perm _ _)).mpr hkey
    have hkeyG : (greedyNoCeilingEvaluate cs).Pairwise
        (fun a b => roiKey a.roiTime ≠ roiKey b.roiTime) := by
      unfold greedyNoCeilingEvaluate
      exact (List.Perm.pairwise_iff (fun h => h.symm) (List.mergeSort_perm _ _)).mpr hkey
    have hsortR : (relaxedEvaluate cs).Pairwise (fun a b => relaxedLe a b = true) := by
      unfold relaxedEvaluate
      exact List.sorted_mergeSort relaxedLe_trans relaxedLe_total _
    have hsortG : (greedyNoCeilingEvaluate cs).Pairwise (fun a b => candidateLe a b = true) := by
      unfold greedyNoCeilingEvaluate
      exact List.sorted_mergeSort candidateLe_trans candidateLe_total _
    have hltR : (relaxedEvaluate cs).Pairwise
        (fun a b => roiKey a.roiTime < roiKey b.roiTime) := by
      refine (hsortR.and hkeyR).imp ?_
      intro a b hab
      have h1 := hab.1
      simp only [relaxedLe, decide_eq_true_eq] at h1
      exact lt_of_le_of_ne h1 hab.2
    have hltG : (greedyNoCeilingEvaluate cs).Pairwise
        (fun a b => roiKey a.roiTime < roiKey b.roiTime) := by
      refine (hsortG.and hkeyG).imp ?_
      intro a b hab
      have h1 := hab.1
      simp only [candidateLe, Bool.or_eq_true, Bool.and_eq_true, decide_eq_true_eq,
        beq_iff_eq] at h1
      rcases h1 with h1 | ⟨h1, _⟩
      · exact h1
      · exact absurd h1 hab.2
    have hperm : (relaxedEvaluate cs).Perm (greedyNoCeilingEvaluate cs) := by
      unfold relaxedEvaluate greedyNoCeilingEvaluate
      exact (List.mergeSort_perm _ _).trans (List.mergeSort_perm _ _).symm
    exact eq_of_perm_of_pairwise_asymm (fun a b h => lt_asymm h) _ _ hperm hltR hltG

/-- First candidate of the distinct-payback witness pair. -/
def wDistinct1 : Candidate :=
  { id := "p", type := "building", name := "p", cost := 1, deltaCPS := 1, roiTime := .num 7 }

/-- Second candidate of the distinct-payback witness pair. -/
def wDistinct2 : Candidate :=
  { id := "q", type := "upgrade", name := "q", cost := 1, deltaCPS := 1, roiTime := .num 3 }

/-- Witness for claim C7 (amended): with pairwise-distinct payback times the
Relaxed output coincides with Greedy minus the ceiling filter. -/
theorem relaxedEvaluate_amended_witness :
    relaxedEvaluate [wDistinct1, wDistinct2] = greedyNoCeilingEvaluate [wDistinct1, wDistinct2] := by
  refine relaxedEvaluate_amended.2.2 [wDistinct1, wDistinct2] ?_
  have hf : (([wDistinct1, wDistinct2].filter (fun c => isValidROIC c.roiTime)).filter
      (fun c => isValidCandidateC c)) = [wDistinct1, wDistinct2] := by
    norm_num [wDistinct1, wDistinct2, isValidROIC, isFiniteJ, jleb, isValidCandidateC,
      List.filter]
  rw [hf]
  norm_num [List.pairwise_cons, wDistinct1, wDistinct2]

/-- The required-property loop never throws when the in operator never throws
on the inspected value. -/
lemma checkRequired_ok_of_inOp {v : JSValue}
    (h : ∀ p, ∃ b, inOp p v = .ok b) :
    ∀ ps : List String, ∃ b, Validators.checkRequired ps v = .ok b := by
  intro ps
  induction ps with
  | nil => exact ⟨true, rfl⟩
  | cons p ps ih =>
    obtain ⟨b, hb⟩ := h p
    obtain ⟨b2, hb2⟩ := ih
    unfold Validators.checkRequired
    rw [hb]
    cases b
    · exact ⟨false, rfl⟩
    · exact ⟨b2, by simpa using hb2⟩

/-- Claim C8 (amended): every validation function returns a boolean and never
throws on any input, with the single exception of isValidCandidate, which
applies the JavaScript in operator to its argument and therefore throws a
TypeError on truthy primitives (numbers, non-empty strings, true); on
objects, arrays, functions, null, undefined and falsy primitives it returns
a boolean like the others. -/
theorem validators_never_throw_amended :
    (∀ v, isOkE (Validators.isValidGameObject v) = true) ∧
    (∀ v, isOkE (Validators.isValidBuilding v) = true) ∧
    (∀ v, isOkE (Validators.isValidUpgrade v) = true) ∧
    (∀ v, isOkE (Validators.isValidROI v) = true) ∧
    (∀ v, isOkE (Validators.isValidDeltaCPS v) = true) ∧
    (∀ v w, isOkE (Validators.isAffordable v w) = true) ∧
    (∀ v w, isOkE (Validators.isReasonablyAffordable v w) = true) ∧
    (∀ v, isOkE (Validators.isValidGameState v) = true) ∧
    (∀ fields, isOkE (Validators.isValidCandidate (.vobj fields)) = true) ∧
    (∀ elems, isOkE (Validators.isValidCandidate (.varr elems)) = true) ∧
    isOkE (Validators.isValidCandidate .vfun) = true ∧
    isOkE (Validators.isValidCandidate .vnull) = true ∧
    isOkE (Validators.isValidCandidate .vundefined) = true ∧
    isOkE (Validators.isValidCandidate (.vbool false)) = true ∧
    isOkE (Validators.isValidCandidate (.vstr "")) = true ∧
    isOkE (Validators.isValidCandidate (.vnum (.num 0))) = true ∧
    isOkE (Validators.isValidCandidate (.vnum .nan)) = true := by
  refine ⟨?_, ?_, ?_, ?_, ?_, ?_, ?_, ?_, ?_, ?_, rfl, rfl, rfl, rfl, rfl, rfl, rfl⟩
  · intro v
    cases v <;>
      simp only [Validators.isValidGameObject, getProp, truthy, typeOf, isArrayV] <;>
      (repeat' split) <;> simp_all [isOkE]
  · intro v
    cases v <;>
      simp only [Validators.isValidBuilding, getProp, truthy, typeOf] <;>
      (repeat' split) <;> simp_all [isOkE]
  · intro v
    cases v <;>
      simp only [Validators.isValidUpgrade, getProp, truthy, typeOf] <;>
      (repeat' split) <;> simp_all [isOkE]
  · intro v
    cases v <;>
      simp only [Validators.isValidROI] <;>
      (repeat' split) <;> simp_all [isOkE]
  · intro v
    cases v <;>
      simp only [Validators.isValidDeltaCPS] <;>
      (repeat' split) <;> simp_all [isOkE]
  · intro v w
    cases v <;> cases w <;> rfl
  · intro v w
    cases v <;> cases w <;> rfl
  · intro v
    cases v <;>
      simp only [Validators.isValidGameState, getProp, truthy, typeOf, isArrayV] <;>
      (repeat' split) <;> simp_all [isOkE]
  · intro fields
    obtain ⟨b, hb⟩ := checkRequired_ok_of_inOp
      (v := .vobj fields) (fun p => ⟨_, rfl⟩) Validators.requiredProps
    simp only [Validators.isValidCandidate, truthy, getProp, hb]
    (repeat' split) <;> simp_all [isOkE]
  · intro elems
    rfl

/-- Counterexample to claim C8: isValidCandidate applied to the number 5
throws a TypeError, because the in operator rejects primitive right
operands. -/
theorem isValidCandidate_throws_cex :
    Validators.isValidCandidate (.vnum (.num 5)) = .error () := rfl

/-- Claim C9: when the active policy's evaluate throws or returns a
non-array and the policy is not a Greedy instance, recommend returns the
greedy ranking of the same candidates; an error escapes recommend only when
the active policy is the Greedy one (whose failure is then rethrown). -/
theorem recommend_greedy_fallback :
    (∀ (s : MStrategy) (cs : List Candidate),
      s.isGreedyInstance = false → (s.eval cs).isArr = false →
      recommend s cs = .ok (greedyEvaluate cs)) ∧
    (∀ (s : MStrategy) (cs : List Candidate) (e : Unit),
      recommend s cs = .error e → s.isGreedyInstance = true ∧ (s.eval cs).isArr = false) := by
  constructor
  · intro s cs hg harr
    unfold recommend
    cases h : s.eval cs with
    | arr l =>
      rw [h] at harr
      exact absurd harr (by simp [EvalOutcome.isArr])
    | throws => simp [hg]
    | nonArray => simp [hg]
  · intro s cs e h
    unfold recommend at h
    cases he : s.eval cs with
    | arr l => rw [he] at h; exact absurd h (by simp)
    | throws =>
      rw [he] at h
      by_cases hg : s.isGreedyInstance
      · exact ⟨hg, rfl⟩
      · simp [hg] at h
    | nonArray =>
      rw [he] at h
      by_cases hg : s.isGreedyInstance
      · exact ⟨hg, rfl⟩
      · simp [hg] at h

/-- A non-greedy policy whose evaluate always throws. -/
def failingStrategy : MStrategy :=
  { isGreedyInstance := false, eval := fun _ => .throws }

/-- Witness for claim C9: the engine falls back to the greedy ranking when
the concrete always-throwing non-greedy policy is active. -/
theorem recommend_greedy_fallback_witness :
    recommend failingStrategy [] = .ok (greedyEvaluate []) :=
  recommend_greedy_fallback.1 failingStrategy [] rfl rfl

/-- Claim C10: every candidate the economic model emits from a normalized
state passes the structural candidate check, so the defensive third filter of
the Greedy policy removes nothing from the (already ROI- and ceiling-
filtered) model output. -/
theorem getAllCandidates_structurally_valid :
    (∀ (st : GameState) (c : Candidate), c ∈ getAllCandidates st →
      isValidCandidateC c = true) ∧
    (∀ st : GameState,
      (((getAllCandidates st).filter (fun c => isValidROIC c.roiTime)).filter
          (fun c => jleb c.roiTime (.num Constants.MAX_REASONABLE_ROI))).filter
        (fun c => isValidCandidateC c) =
      ((getAllCandidates st).filter (fun c => isValidROIC c.roiTime)).filter
        (fun c => jleb c.roiTime (.num Constants.MAX_REASONABLE_ROI))) := by
  have hmain : ∀ (st : GameState) (c : Candidate), c ∈ getAllCandidates st →
      isValidCandidateC c = true := by
    intro st c hc
    rcases mem_getAllCandidates hc with ⟨b, _, hb⟩ | ⟨u, _, hu⟩
    · obtain ⟨ht, hcost, hpos, _⟩ := buildingROI_fields hb
      have hn : ¬c.cost ≤ 0 := by rw [hcost]; exact not_le.mpr hpos
      simp [isValidCandidateC, ht, hn]
    · obtain ⟨ht, hcost, hpos, _, _⟩ := upgradeROI_fields hu
      have hn : ¬c.cost ≤ 0 := by rw [hcost]; exact not_le.mpr hpos
      simp [isValidCandidateC, ht, hn]
  refine ⟨hmain, ?_⟩
  intro st
  rw [List.filter_eq_self]
  intro c hc
  exact hmain st c (List.mem_filter.mp (List.mem_filter.mp hc).1).1

/-- A fresh Cursor building: first purchase, integer rates. -/
def cursorBuilding : Building :=
  { id := "Cursor", name := "Cursor", owned := 0, cost := 10, baseCPS := 2, totalCPS := 0 }

/-- Snapshot holding only the fresh Cursor building. -/
def cursorState : GameState :=
  { cookies := 0, cookiesPerSecond := 0, buildings := [cursorBuilding], upgrades := [] }

/-- The candidate the model emits for the fresh Cursor building. -/
def cursorCandidate : Candidate :=
  { id := "Cursor", type := "building", name := "Cursor", cost := 10, deltaCPS := 2,
    roiTime := .num 5 }

/-- Witness for claim C10: the concrete Cursor candidate emitted by the model
passes the structural check. -/
theorem getAllCandidates_structurally_valid_witness :
    isValidCandidateC cursorCandidate = true := by
  refine getAllCandidates_structurally_valid.1 cursorState cursorCandidate ?_
  have h : getAllCandidates cursorState = [cursorCandidate] := by
    norm_num [getAllCandidates, cursorState, cursorBuilding, calculateBuildingROI,
      calculateROITime, cursorCandidate, jltb, jdiv, isFiniteJ,
      Constants.MIN_VALID_DELTA_CPS, List.filterMap]
  rw [h]
  exact List.mem_singleton_self _

/-- Snapshot with strictly positive global rate for the amended-C2 witness. -/
def boostState : GameState :=
  { cookies := 0, cookiesPerSecond := 100, buildings := [], upgrades := [] }

/-- Witness for claim C2 (amended) at a concrete positive-rate snapshot: the
opaque upgrade yields a candidate, and its fallback rate delta 100 * 0.02 = 2
is strictly positive. -/
theorem calculateUpgradeROI_deltaCPS_amended_witness :
    (∃ c, calculateUpgradeROI boostState unknownUpgrade = some c ∧
      (∀ d : String,
        d = (if unknownUpgrade.descriptionDetail ≠ "" then unknownUpgrade.descriptionDetail
          else unknownUpgrade.description) →
        estimateP1 boostState (lowerStr d) = none →
        percentMatch (lowerStr d) = none →
        flatMatch (lowerStr d) = none →
        findAffectedBuilding boostState (lowerStr d) = none →
        (containsSub ("click".toList) (lowerStr d) ||
          containsSub ("cursor".toList) (lowerStr d)) = false →
        c.deltaCPS = boostState.cookiesPerSecond * Constants.UPGRADE_ESTIMATES.CONSERVATIVE_BOOST ∧
          (0 < boostState.cookiesPerSecond → 0 < c.deltaCPS))) ∧
    (calculateUpgradeROI boostState unknownUpgrade).map Candidate.deltaCPS = some 2 := by
  refine ⟨calculateUpgradeROI_deltaCPS_amended boostState unknownUpgrade
    (by norm_num [unknownUpgrade]), ?_⟩
  have hcost : ¬unknownUpgrade.cost ≤ 0 := by norm_num [unknownUpgrade]
  have hdesc : (if unknownUpgrade.descriptionDetail ≠ "" then unknownUpgrade.descriptionDetail
      else unknownUpgrade.description) = "???" := by decide
  have hest : estimateUpgradeCPS boostState "???" =
      boostState.cookiesPerSecond * Constants.UPGRADE_ESTIMATES.CONSERVATIVE_BOOST :=
    estimateUpgradeCPS_priority.2.2.2.2.2.2 boostState "???"
      (by decide) (by decide) (by decide) (by decide) (by decide)
  simp only [calculateUpgradeROI, hdesc, if_neg hcost, Option.map_some']
  rw [hest]
  norm_num [boostState, Constants.UPGRADE_ESTIMATES.CONSERVATIVE_BOOST]
